import Mathlib

/-!
Verification of the AI-Powered-Healthcare-System repository (`app.py`,
`train_model.py`): a shallow embedding of its credential store, record
store, classifier adapter and portal operations, with theorems checking
the natural-language specification against the code.

Python string primitives are embedded as structurally recursive functions
over `List Char` (code points), matching CPython semantics on the ASCII
inputs the application handles.
-/

namespace Healthcare

/-- Python whitespace for `str.strip()`: space, tab, newline, carriage
return, vertical tab, form feed. -/
def isPySpace (c : Char) : Bool :=
  c = ' ' || c = '\t' || c = '\n' || c = '\r' || c = '\x0b' || c = '\x0c'

/-- Python `s.strip()` on the character list of `s`. -/
def pyStrip (l : List Char) : List Char :=
  ((l.dropWhile isPySpace).reverse.dropWhile isPySpace).reverse

/-- Python `s.split(sep)` for a one-character separator: splitting the
empty string yields `[""]`, and separators at the ends yield empty
fields, exactly as in CPython. -/
def pySplit (sep : Char) : List Char → List (List Char)
  | [] => [[]]
  | c :: cs =>
    if c = sep then [] :: pySplit sep cs
    else
      match pySplit sep cs with
      | t :: ts => (c :: t) :: ts
      | [] => [[c]]

/-- Python `s.lower()` (ASCII range, as used by the symptom checker). -/
def pyLower (l : List Char) : List Char :=
  l.map Char.toLower

/-- Helper for `pyTitle`: the flag records whether the previous character
was alphabetic. -/
def pyTitleAux : Bool → List Char → List Char
  | _, [] => []
  | prevAlpha, c :: cs =>
    let c' := if c.isAlpha then (if prevAlpha then c.toLower else c.toUpper) else c
    c' :: pyTitleAux c.isAlpha cs

/-- Python `s.title()` (ASCII range): a letter is uppercased when it
follows a non-letter and lowercased otherwise. -/
def pyTitle (l : List Char) : List Char :=
  pyTitleAux false l

/-- Python string `<=`: lexicographic comparison by code point. -/
def lexLe : List Char → List Char → Bool
  | [], _ => true
  | _ :: _, [] => false
  | a :: as, b :: bs => if a = b then lexLe as bs else decide (a < b)

/-! ## Classifier adapter (`app.py` lines 196-202)

`user_symptoms = [s.strip().lower() for s in user_input.split(",")]`,
then a 0/1 vector over the vectorizer's feature names, then
`model.predict`.  The trained random-forest classifier lives in a pickle
file outside the repository; it is modelled as an arbitrary total
function from feature vectors to labels, which is exactly the interface
`model.predict` presents to `app.py`. -/

/-- The token list built from the free-text symptom input. -/
def tokenize (input : String) : List String :=
  (pySplit ',' input.data).map (fun t => ⟨pyLower (pyStrip t)⟩)

/-- The binary feature vector over the vocabulary `all_symptoms`. -/
def symptomsVector (vocab : List String) (input : String) : List Nat :=
  vocab.map (fun symptom => if symptom ∈ tokenize input then 1 else 0)

/-- The adapter: build the vector, feed it to the classifier, return the
single predicted label. -/
def predict (model : List Nat → String) (vocab : List String) (input : String) : String :=
  model (symptomsVector vocab input)

/-! ## Record store (`app.py` lines 364-384)

A medical record is the dict built in the add-record form handler; the
`id` and `timestamp` come from the environment (`uuid4()`,
`datetime.now()`) and are treated as inputs.  A patient's
`medical_history` is a Python dict of folder name to record list;
Python dicts preserve insertion order, so it is embedded as an
association list with unique keys. -/

/-- One attachment: `{"name": ..., "bytes": ...}`. -/
structure Attachment where
  name : String
  bytes : List Nat
deriving DecidableEq

/-- One medical record, in the field order of the dict literal at
`app.py` lines 365-372. -/
structure MedicalRecord where
  id : String
  doctor : String
  allergies : String
  treatment : String
  medications : String
  timestamp : String
  file : Option Attachment := none
deriving DecidableEq

/-- A patient's `medical_history`: folder name to ordered record list,
insertion order of keys preserved. -/
abbrev Folders := List (String × List MedicalRecord)

/-- Dict key lookup on an association list. -/
def findFolder : Folders → String → Option (List MedicalRecord)
  | [], _ => none
  | (k, l) :: rest, name => if k = name then some l else findFolder rest name

/-- `app.py` lines 379-384: create the folder with `[]` if the key is
absent (new dict keys go to the end), then append the record to the
folder's list. -/
def addToFolders : Folders → String → MedicalRecord → Folders
  | [], name, r => [(name, [r])]
  | (k, l) :: rest, name, r =>
    if k = name then (k, l ++ [r]) :: rest
    else (k, l) :: addToFolders rest name r

/-- The comparison used by every record view:
`sorted(records, key=lambda x: x.get("timestamp", ""), reverse=True)`.
`recordDesc a b` says `a` may come before `b`, i.e. `b.timestamp <=
a.timestamp` as Python strings. -/
def recordDesc (a b : MedicalRecord) : Bool :=
  lexLe b.timestamp.data a.timestamp.data

/-- `recordDesc` as a relation, for the sorting lemmas. -/
def rDesc (a b : MedicalRecord) : Prop :=
  recordDesc a b = true

instance : DecidableRel rDesc :=
  fun a b => inferInstanceAs (Decidable (recordDesc a b = true))

/-- Python's `sorted(..., reverse=True)` is a stable descending sort;
insertion sort with `rDesc` places each element before the later-listed
elements of equal timestamp, matching that order exactly. -/
def sortRecords (l : List MedicalRecord) : List MedicalRecord :=
  l.insertionSort rDesc

/-- `listRecords`: the records of one folder sorted newest-first
(`app.py` lines 233-236 and 333-335); a missing folder reads as empty. -/
def listRecords (fs : Folders) (name : String) : List MedicalRecord :=
  sortRecords ((findFolder fs name).getD [])

/-- All records of a patient across all folders (`app.py` lines
140-142: `for folder in medical_history.values(): all_records.extend(folder)`). -/
def allRecords (fs : Folders) : List MedicalRecord :=
  (fs.map Prod.snd).flatten

/-- The allergy tokens of one record:
`a.strip().title() for a in record["allergies"].split(",")`. -/
def allergyTokens (s : String) : List String :=
  (pySplit ',' s.data).map (fun t => ⟨pyTitle (pyStrip t)⟩)

/-- Adding one element to a Python set: kept only if new. -/
def setAdd (acc : List String) (x : String) : List String :=
  if x ∈ acc then acc else acc ++ [x]

/-- `set.update(iterable)`: add each element in turn. -/
def setUpdate (acc : List String) (xs : List String) : List String :=
  xs.foldl setAdd acc

/-- `combined_allergies` of the patient portal (`app.py` lines 150-155):
fold over the records sorted newest-first, adding the allergy tokens of
every record whose `allergies` field is non-empty after `strip()`.  The
Python set is modelled as a duplicate-free list. -/
def combinedAllergies (fs : Folders) : List String :=
  (sortRecords (allRecords fs)).foldl
    (fun acc r =>
      if pyStrip r.allergies.data ≠ [] then setUpdate acc (allergyTokens r.allergies)
      else acc) []

/-- `current_medications` of the patient portal (`app.py` lines 156-161):
the records with a non-empty `medications` field, in the newest-first
iteration order, projected to (medications, doctor, date). -/
def currentMedications (fs : Folders) : List (String × String × String) :=
  ((sortRecords (allRecords fs)).filter
      (fun r => !(pyStrip r.medications.data).isEmpty)).map
    (fun r => (r.medications, r.doctor, r.timestamp))

/-! ## Credential store and session (`app.py` lines 19-84)

`bcrypt.hashpw` produces a modular-crypt string embedding the salt; it
is modelled as the tagged concatenation of salt and password, which
keeps the two bcrypt facts the code relies on: `checkpw` recovers the
salt from the stored string and re-verifies the password against it,
and the stored string is never the raw password.  `bcrypt.checkpw`
re-hashes the candidate with the salt parsed out of the stored string
and compares. -/

/-- Model of `bcrypt.hashpw(password, salt)` (decoded to a string as the
code stores it).  The salt, drawn from bcrypt's alphabet, contains no
`$`. -/
def hashpw (password salt : String) : String :=
  "$2b$" ++ salt ++ "$" ++ password

/-- Model of `bcrypt.checkpw(provided, stored)`: parse the salt out of
the stored string, re-hash the provided password with it, compare. -/
def checkpw (provided stored : String) : Bool :=
  stored.data ==
    "$2b$".data ++ (stored.data.drop 4).takeWhile (fun c => c ≠ '$') ++
      "$".data ++ provided.data

/-- The two values of the role selectbox (`app.py` line 34). -/
inductive Role
  | patient
  | doctor
deriving DecidableEq

/-- A Python dict field that can be missing, present with value `None`,
or present with a proper value — the three states `app.py` distinguishes
(`"doctors" not in patient_data` vs `patients: None` vs a list). -/
inductive DictField (α : Type)
  | absent
  | null
  | val (a : α)
deriving DecidableEq

/-- One entry of `st.session_state.users` (`app.py` lines 49-54).  The
`doctors` key is not written at signup; it appears on the patient's dict
the first time a doctor adds a record (`app.py` lines 387-390). -/
structure User where
  password : String
  role : Role
  medical_history : DictField Folders
  patients : DictField (List String)
  doctors : DictField (List String) := .absent
deriving DecidableEq

/-- `st.session_state.users`: a dict of username to user, insertion
order preserved. -/
abbrev Users := List (String × User)

/-- Dict key lookup on the user store. -/
def findUser : Users → String → Option User
  | [], _ => none
  | (k, u) :: rest, name => if k = name then some u else findUser rest name

/-- In-place mutation of one user's dict value (Python mutates the entry
`st.session_state.users[name]` through the `patient_data` alias). -/
def updateUser : Users → String → (User → User) → Users
  | [], _, _ => []
  | (k, u) :: rest, name, f =>
    if k = name then (k, f u) :: rest else (k, u) :: updateUser rest name f

/-- The login session (`app.py` lines 23-26); the empty-string initial
role is modelled as `none`. -/
structure Session where
  logged_in : Bool
  username : String
  role : Option Role
deriving DecidableEq

/-- The whole process state the claims range over. -/
structure AppState where
  users : Users
  session : Session
deriving DecidableEq

/-- The state after the session-initialization block (`app.py` lines
19-26): no users, logged out. -/
def initState : AppState :=
  { users := [], session := { logged_in := false, username := "", role := none } }

/-- Signup outcome: `st.error` is a `ValidationError`, `st.success` is
`ok`. -/
inductive SignupOutcome
  | ok
  | validationError
deriving DecidableEq

/-- The signup handler (`app.py` lines 36-55), with the bcrypt salt as
an environment input.  The checks run in source order; Python's
`not username or not password` is the empty-string test. -/
def signup (users : Users) (username password confirm : String) (role : Role)
    (salt : String) : SignupOutcome × Users :=
  if username = "" ∨ password = "" then (.validationError, users)
  else if password ≠ confirm then (.validationError, users)
  else if password.length < 8 then (.validationError, users)
  else if (findUser users username).isSome then (.validationError, users)
  else
    (.ok, users ++ [(username,
      { password := hashpw password salt
        role := role
        medical_history := if role = .patient then .val [] else .null
        patients := if role = .doctor then .val [] else .null
        doctors := .absent })])

/-- Login outcome: `st.error("Invalid credentials.")` is an `AuthError`. -/
inductive LoginOutcome
  | ok
  | authError
deriving DecidableEq

/-- The login handler (`app.py` lines 62-77): look the user up, check
the password against the stored hash, and on success mark the session
logged in under that identity. -/
def login (st : AppState) (username password : String) : LoginOutcome × AppState :=
  match findUser st.users username with
  | none => (.authError, st)
  | some u =>
    if checkpw password u.password then
      (.ok, { st with session := { logged_in := true, username := username, role := some u.role } })
    else
      (.authError, st)

/-- `patient_data.get("doctors", [])` (`app.py` line 387): the list when
the key holds one, `[]` when the key is absent.  (A `None` value would
crash the Python `in` test; no reachable state stores one.) -/
def doctorsOrEmpty (u : User) : List String :=
  match u.doctors with
  | .val l => l
  | _ => []

/-- The add-record mutation on the selected patient's dict (`app.py`
lines 379-390): append the record to the chosen folder, creating it if
absent, then add the authoring doctor to the patient's `doctors` list
unless already present. -/
def addRecordToUser (u : User) (folder : String) (r : MedicalRecord)
    (docName : String) : User :=
  let u1 := { u with medical_history :=
    match u.medical_history with
    | .val fs => .val (addToFolders fs folder r)
    | mh => mh }
  if docName ∈ doctorsOrEmpty u1 then u1
  else { u1 with doctors := .val (doctorsOrEmpty u1 ++ [docName]) }

/-- The UI actions that mutate state.  For `addRecord` the record id and
timestamp are environment inputs (`uuid4()`, `datetime.now()`); the
authoring doctor is the logged-in session user (`app.py` line 367). -/
inductive Op
  | signup (username password confirm : String) (role : Role) (salt : String)
  | login (username password : String)
  | logout
  | addRecord (patient folder : String) (id allergies treatment medications timestamp : String)
      (file : Option Attachment)
deriving DecidableEq

/-- One UI action.  `main_app` (`app.py` lines 502-506) routes signup
and login to logged-out sessions and the portals to logged-in ones; the
doctor portal offers `addRecord` only on users with role Patient
(`app.py` line 248), and only to a logged-in doctor. -/
def step (st : AppState) : Op → AppState
  | .signup username password confirm role salt =>
    if st.session.logged_in then st
    else { st with users := (signup st.users username password confirm role salt).2 }
  | .login username password =>
    if st.session.logged_in then st else (login st username password).2
  | .logout =>
    if st.session.logged_in then
      { st with session := { logged_in := false, username := "", role := none } }
    else st
  | .addRecord patient folder id allergies treatment medications timestamp file =>
    if st.session.logged_in ∧ st.session.role = some .doctor then
      match findUser st.users patient with
      | some u =>
        if u.role = .patient then
          { st with users := (updateUser st.users patient
              (fun v => addRecordToUser v folder
                { id := id, doctor := st.session.username, allergies := allergies,
                  treatment := treatment, medications := medications,
                  timestamp := timestamp, file := file }
                st.session.username)) }
        else st
      | none => st
    else st

/-- Run a sequence of UI actions from process start. -/
def run (ops : List Op) : AppState :=
  ops.foldl step initState

/-- The records of one folder of one patient in a user store, `none`
when the patient, the history dict or the folder key is missing. -/
def folderListU (users : Users) (p f : String) : Option (List MedicalRecord) :=
  match findUser users p with
  | some u =>
    match u.medical_history with
    | .val fs => findFolder fs f
    | _ => none
  | none => none

/-- The records of one folder of one patient in an application state. -/
def folderList (st : AppState) (p f : String) : Option (List MedicalRecord) :=
  folderListU st.users p f

/-- Folder-level replay of a sequence of `addRecord` calls for one
patient, starting from the empty history dict. -/
def runAdds (calls : List (String × MedicalRecord)) : Folders :=
  calls.foldl (fun fs c => addToFolders fs c.1 c.2) []

/-! ## Concrete data for witnesses -/

/-- The record stored by the first demo `addRecord` action. -/
def recA1 : MedicalRecord :=
  { id := "id1", doctor := "bob", allergies := "peanuts, Dust", treatment := "Rest",
    medications := "Ibuprofen", timestamp := "2024-01-01 10:00:00", file := none }

/-- The record stored by the second demo `addRecord` action. -/
def recA2 : MedicalRecord :=
  { id := "id2", doctor := "bob", allergies := "Peanuts, pollen", treatment := "Checkup",
    medications := "", timestamp := "2024-01-02 11:30:00", file := none }

/-- A patient history with the two allergy-example records of the spec. -/
def foldersDemo : Folders := [("Checkups", [recA1, recA2])]

/-- Patient `alice` as stored right after signup. -/
def userAlice0 : User :=
  { password := hashpw "password1" "SALTA", role := .patient,
    medical_history := .val [], patients := .null, doctors := .absent }

/-- Doctor `bob` as stored right after signup. -/
def userBob0 : User :=
  { password := hashpw "password2" "SALTB", role := .doctor,
    medical_history := .null, patients := .val [], doctors := .absent }

/-- A demo trace: patient and doctor sign up, the doctor logs in and
adds two records to the patient's `Checkups` folder. -/
def opsDemo : List Op :=
  [ .signup "alice" "password1" "password1" .patient "SALTA",
    .signup "bob" "password2" "password2" .doctor "SALTB",
    .login "bob" "password2",
    .addRecord "alice" "Checkups" "id1" "peanuts, Dust" "Rest" "Ibuprofen"
      "2024-01-01 10:00:00" none,
    .addRecord "alice" "Checkups" "id2" "Peanuts, pollen" "Checkup" ""
      "2024-01-02 11:30:00" none ]

/-- A one-user demo state: `alice` registered, nobody logged in. -/
def stAlice : AppState :=
  { users := [("alice", userAlice0)],
    session := { logged_in := false, username := "", role := none } }

/-- The demo state after both signups and bob's login. -/
def stDemo2 : AppState := run (opsDemo.take 3)

/-- Patient `alice` at the end of the demo trace: two records in
`Checkups`, `bob` recorded once in her `doctors` list. -/
def userAliceAfter : User :=
  { password := hashpw "password1" "SALTA", role := .patient,
    medical_history := .val [("Checkups", [recA1, recA2])],
    patients := .null, doctors := .val ["bob"] }

/-- The per-user shape invariant the signup and add-record handlers
maintain: a doctor's dict keeps `patients: []` and `medical_history:
None` and never gains a `doctors` key; a patient's dict keeps
`patients: None`, a proper `medical_history` dict, and a
duplicate-free `doctors` list once that key exists. -/
def UserInv (u : User) : Prop :=
  match u.role with
  | .doctor => u.patients = .val [] ∧ u.medical_history = .null ∧ u.doctors = .absent
  | .patient => u.patients = .null ∧ (∃ fs, u.medical_history = .val fs) ∧
      (u.doctors = .absent ∨ ∃ l, u.doctors = .val l ∧ l.Nodup)

/-- The store-wide invariant: every stored user satisfies `UserInv`. -/
def StateInv (st : AppState) : Prop :=
  ∀ p u, findUser st.users p = some u → UserInv u

end Healthcare

namespace Healthcare

theorem lexLe_total : ∀ a b : List Char, lexLe a b = true ∨ lexLe b a = true
  | [], _ => Or.inl rfl
  | _ :: _, [] => Or.inr rfl
  | a :: as, b :: bs => by
    by_cases h : a = b
    · subst h
      simpa [lexLe] using lexLe_total as bs
    · rcases lt_or_gt_of_ne h with hlt | hgt
      · left; simp [lexLe, h, hlt]
      · right; simp [lexLe, Ne.symm h, hgt]

theorem lexLe_trans : ∀ a b c : List Char,
    lexLe a b = true → lexLe b c = true → lexLe a c = true
  | [], _, _, _, _ => rfl
  | _ :: _, [], _, h, _ => by simp [lexLe] at h
  | _ :: _, _ :: _, [], _, h => by simp [lexLe] at h
  | a :: as, b :: bs, c :: cs, h1, h2 => by
    by_cases hab : a = b <;> by_cases hbc : b = c
    · subst hab; subst hbc
      simp only [lexLe, if_pos rfl] at h1 h2 ⊢
      exact lexLe_trans as bs cs h1 h2
    · subst hab
      simp only [lexLe, if_pos rfl] at h1
      simp only [lexLe, if_neg hbc, decide_eq_true_eq] at h2
      simp [lexLe, if_neg hbc, h2]
    · subst hbc
      simp only [lexLe, if_neg hab, decide_eq_true_eq] at h1
      simp [lexLe, if_neg hab, h1]
    · simp only [lexLe, if_neg hab, decide_eq_true_eq] at h1
      simp only [lexLe, if_neg hbc, decide_eq_true_eq] at h2
      have hac : a < c := lt_trans h1 h2
      simp [lexLe, ne_of_lt hac, hac]

instance : IsTrans MedicalRecord rDesc :=
  ⟨fun _ b _ h1 h2 => lexLe_trans _ b.timestamp.data _ h2 h1⟩

instance : IsTotal MedicalRecord rDesc :=
  ⟨fun a b => lexLe_total b.timestamp.data a.timestamp.data⟩

theorem sortRecords_sorted (l : List MedicalRecord) :
    List.Sorted rDesc (sortRecords l) :=
  List.sorted_insertionSort rDesc l

theorem sortRecords_perm (l : List MedicalRecord) :
    (sortRecords l).Perm l :=
  List.perm_insertionSort rDesc l

theorem findFolder_addToFolders_same : ∀ (fs : Folders) (name : String) (r : MedicalRecord),
    findFolder (addToFolders fs name r) name = some ((findFolder fs name).getD [] ++ [r])
  | [], name, r => by simp [addToFolders, findFolder]
  | (k, l) :: rest, name, r => by
    by_cases h : k = name
    · subst h; simp [addToFolders, findFolder]
    · simp [addToFolders, findFolder, h, findFolder_addToFolders_same rest name r]

theorem findFolder_addToFolders_other : ∀ (fs : Folders) (name m : String) (r : MedicalRecord),
    m ≠ name → findFolder (addToFolders fs name r) m = findFolder fs m
  | [], name, m, r, hm => by simp [addToFolders, findFolder, Ne.symm hm]
  | (k, l) :: rest, name, m, r, hm => by
    by_cases h : k = name
    · subst h
      simp [addToFolders, findFolder, Ne.symm hm]
    · by_cases h2 : k = m
      · subst h2
        simp [addToFolders, findFolder, h, hm]
      · simp [addToFolders, findFolder, h, h2,
          findFolder_addToFolders_other rest name m r hm]

theorem runAdds_count : ∀ (calls : List (String × MedicalRecord)) (fs : Folders) (name : String),
    ((findFolder (calls.foldl (fun fs c => addToFolders fs c.1 c.2) fs) name).getD []).length =
      ((findFolder fs name).getD []).length + List.countP (fun c => decide (c.1 = name)) calls
  | [], fs, name => by simp
  | c :: calls, fs, name => by
    rw [List.foldl_cons, runAdds_count calls (addToFolders fs c.1 c.2) name,
      List.countP_cons]
    by_cases h : c.1 = name
    · rw [← h, findFolder_addToFolders_same fs c.1 c.2]
      simp [h]
      omega
    · rw [findFolder_addToFolders_other fs c.1 name c.2 (fun hn => h hn.symm)]
      simp [h]

/-- C2: for every sequence of `addRecord(patientId, folderName, record)`
calls starting from an empty store, each call creates the key
`folderName` if absent and appends the record at the end of that
folder's list; afterwards `listRecords` for that folder returns the
records in non-increasing timestamp order, and its length equals the
number of `addRecord` calls made for that folder. -/
theorem claim_C2 (calls : List (String × MedicalRecord)) (name : String) :
    (∀ (fs : Folders) (r : MedicalRecord),
       findFolder (addToFolders fs name r) name =
         some ((findFolder fs name).getD [] ++ [r])) ∧
    List.Sorted (fun a b => lexLe b.timestamp.data a.timestamp.data = true)
      (listRecords (runAdds calls) name) ∧
    (listRecords (runAdds calls) name).length =
      List.countP (fun c => decide (c.1 = name)) calls := by
  refine ⟨fun fs r => findFolder_addToFolders_same fs name r, ?_, ?_⟩
  · exact sortRecords_sorted ((findFolder (runAdds calls) name).getD [])
  · rw [listRecords, (sortRecords_perm _).length_eq, runAdds, runAdds_count calls [] name]
    simp [findFolder]

theorem count_one_symptomsVector (toks : List String) :
    ∀ vocab : List String,
      List.count 1 (vocab.map fun s => if s ∈ toks then 1 else 0) =
        List.countP (fun s => decide (s ∈ toks)) vocab
  | [] => rfl
  | v :: vocab => by
    by_cases h : v ∈ toks <;>
      simp [List.count_cons, List.countP_cons, h, count_one_symptomsVector toks vocab]

theorem countP_mem_pair {a b : String} (hab : a ≠ b) :
    ∀ l : List String,
      List.countP (fun s => decide (s ∈ ([a, b] : List String))) l =
        List.count a l + List.count b l
  | [] => rfl
  | x :: l => by
    rw [List.countP_cons, List.count_cons, List.count_cons, countP_mem_pair hab l]
    by_cases hxa : x = a
    · subst hxa
      simp [hab]
      omega
    · by_cases hxb : x = b <;> simp [hxa, hxb, hab, Ne.symm hab] <;> omega

/-- C1: `predict` splits on commas, trims and lowercases each token, and
builds a 0/1 vector whose position `i` is 1 iff `vocab[i]` equals one of
the tokens; the input `"fever, headache"` with both tokens in a
duplicate-free vocabulary yields exactly two 1-entries, at the positions
of `"fever"` and `"headache"`; an input matching no vocabulary token
yields the all-zero vector and the adapter still returns the
classifier's label for it. -/
theorem claim_C1 (vocab : List String) (model : List Nat → String) (input : String) :
    (∀ i, i < vocab.length →
       ((symptomsVector vocab input)[i]? = some 1 ↔
         ∃ v, vocab[i]? = some v ∧ v ∈ tokenize input)) ∧
    (vocab.Nodup → "fever" ∈ vocab → "headache" ∈ vocab →
       List.count 1 (symptomsVector vocab "fever, headache") = 2 ∧
       ∀ i, i < vocab.length →
         ((symptomsVector vocab "fever, headache")[i]? = some 1 ↔
           vocab[i]? = some "fever" ∨ vocab[i]? = some "headache")) ∧
    ((∀ v ∈ vocab, v ∉ tokenize input) →
       symptomsVector vocab input = List.replicate vocab.length 0 ∧
       predict model vocab input = model (List.replicate vocab.length 0)) := by
  have hget : ∀ (inp : String) (i : Nat), i < vocab.length →
      ((symptomsVector vocab inp)[i]? = some 1 ↔
        ∃ v, vocab[i]? = some v ∧ v ∈ tokenize inp) := by
    intro inp i hi
    have hv : vocab[i]? = some vocab[i] := List.getElem?_eq_getElem hi
    rw [symptomsVector, List.getElem?_map, hv]
    by_cases hmem : vocab[i] ∈ tokenize inp <;> simp [hmem]
  refine ⟨hget input, fun hnd hf hh => ⟨?_, ?_⟩, fun hnone => ?_⟩
  · have htoks : tokenize "fever, headache" = ["fever", "headache"] := by decide
    rw [symptomsVector, htoks, count_one_symptomsVector,
      countP_mem_pair (by decide : ("fever" : String) ≠ "headache"),
      List.count_eq_one_of_mem hnd hf, List.count_eq_one_of_mem hnd hh]
  · intro i hi
    rw [hget "fever, headache" i hi]
    have htoks : tokenize "fever, headache" = ["fever", "headache"] := by decide
    have hv : vocab[i]? = some vocab[i] := List.getElem?_eq_getElem hi
    rw [htoks, hv]
    simp
  · have hvec : symptomsVector vocab input = List.replicate vocab.length 0 := by
      rw [List.eq_replicate_iff]
      constructor
      · simp [symptomsVector]
      · intro b hb
        rw [symptomsVector, List.mem_map] at hb
        obtain ⟨v, hv, hb⟩ := hb
        rw [if_neg (hnone v hv)] at hb
        exact hb.symm
    exact ⟨hvec, by rw [predict, hvec]⟩

/-- C9: `predict` is deterministic — equal input strings under the same
vocabulary and trained model yield equal feature vectors and equal
labels.  The embedded classifier is a pure function of the vector, which
is what `model.predict` on the loaded pickle is. -/
theorem claim_C9 (model : List Nat → String) (vocab : List String) (s t : String)
    (h : s = t) :
    symptomsVector vocab s = symptomsVector vocab t ∧
      predict model vocab s = predict model vocab t := by
  subst h
  exact ⟨rfl, rfl⟩

theorem mem_setAdd (acc : List String) (y x : String) :
    x ∈ setAdd acc y ↔ x ∈ acc ∨ x = y := by
  rw [setAdd]
  by_cases h : y ∈ acc
  · simp only [if_pos h]
    constructor
    · exact Or.inl
    · rintro (hx | rfl)
      · exact hx
      · exact h
  · simp [if_neg h]

theorem mem_setUpdate : ∀ (xs acc : List String) (x : String),
    x ∈ setUpdate acc xs ↔ x ∈ acc ∨ x ∈ xs
  | [], acc, x => by simp [setUpdate]
  | y :: xs, acc, x => by
    rw [setUpdate, List.foldl_cons]
    rw [show List.foldl setAdd (setAdd acc y) xs = setUpdate (setAdd acc y) xs from rfl]
    rw [mem_setUpdate xs (setAdd acc y) x, mem_setAdd]
    simp only [List.mem_cons]
    tauto

theorem nodup_setAdd (acc : List String) (y : String) (h : acc.Nodup) :
    (setAdd acc y).Nodup := by
  rw [setAdd]
  by_cases hy : y ∈ acc
  · simpa [if_pos hy]
  · rw [if_neg hy, List.nodup_append]
    refine ⟨h, List.nodup_singleton y, fun a ha hay => ?_⟩
    rw [List.mem_singleton] at hay
    subst hay
    exact hy ha

theorem nodup_setUpdate : ∀ (xs acc : List String), acc.Nodup → (setUpdate acc xs).Nodup
  | [], _, h => h
  | y :: xs, acc, h =>
    nodup_setUpdate xs (setAdd acc y) (nodup_setAdd acc y h)

theorem mem_allergyFold : ∀ (l : List MedicalRecord) (acc : List String) (x : String),
    (x ∈ l.foldl (fun acc r =>
        if pyStrip r.allergies.data ≠ [] then setUpdate acc (allergyTokens r.allergies)
        else acc) acc) ↔
      x ∈ acc ∨ ∃ r ∈ l, pyStrip r.allergies.data ≠ [] ∧ x ∈ allergyTokens r.allergies
  | [], acc, x => by simp
  | r :: l, acc, x => by
    rw [List.foldl_cons, mem_allergyFold l _ x]
    by_cases h : pyStrip r.allergies.data = []
    · simp [h]
    · rw [if_pos h, mem_setUpdate]
      simp only [List.mem_cons]
      constructor
      · rintro (⟨hx | hx⟩ | ⟨s, hs, hne, hx⟩)
        · exact Or.inl hx
        · exact Or.inr ⟨r, Or.inl rfl, h, hx⟩
        · exact Or.inr ⟨s, Or.inr hs, hne, hx⟩
      · rintro (hx | ⟨s, rfl | hs, hne, hx⟩)
        · exact Or.inl (Or.inl hx)
        · exact Or.inl (Or.inr hx)
        · exact Or.inr ⟨s, hs, hne, hx⟩

theorem nodup_allergyFold : ∀ (l : List MedicalRecord) (acc : List String), acc.Nodup →
    (l.foldl (fun acc r =>
        if pyStrip r.allergies.data ≠ [] then setUpdate acc (allergyTokens r.allergies)
        else acc) acc).Nodup
  | [], _, h => h
  | r :: l, acc, h => by
    rw [List.foldl_cons]
    refine nodup_allergyFold l _ ?_
    by_cases hr : pyStrip r.allergies.data = []
    · simpa [hr]
    · rw [if_pos hr]
      exact nodup_setUpdate _ acc h

/-- C5: the summary's allergy set is exactly the deduplicated union of
the comma-split, trimmed, title-cased allergy tokens over the records
whose `allergies` field has content; the records `"peanuts, Dust"` and
`"Peanuts, pollen"` merge to the set `{"Peanuts", "Dust", "Pollen"}`;
and the medications list is the records with a non-empty `medications`
field, ordered newest-first by timestamp string comparison. -/
theorem claim_C5 (fs : Folders) :
    (∀ x, x ∈ combinedAllergies fs ↔
       ∃ r ∈ allRecords fs, pyStrip r.allergies.data ≠ [] ∧ x ∈ allergyTokens r.allergies) ∧
    (combinedAllergies fs).Nodup ∧
    (combinedAllergies foldersDemo).toFinset = ({"Peanuts", "Dust", "Pollen"} : Finset String) ∧
    (∃ l, List.Sorted (fun a b => lexLe b.timestamp.data a.timestamp.data = true) l ∧
       l.Perm ((allRecords fs).filter (fun r => !(pyStrip r.medications.data).isEmpty)) ∧
       currentMedications fs = l.map (fun r => (r.medications, r.doctor, r.timestamp))) := by
  refine ⟨fun x => ?_, ?_, ?_, ?_⟩
  · rw [combinedAllergies, mem_allergyFold]
    simp only [List.not_mem_nil, false_or]
    exact exists_congr fun r => and_congr_left fun _ => (sortRecords_perm (allRecords fs)).mem_iff
  · exact nodup_allergyFold _ [] List.nodup_nil
  · have h : combinedAllergies foldersDemo = ["Peanuts", "Pollen", "Dust"] := by decide
    rw [h]
    ext x
    simp
    tauto
  · refine ⟨(sortRecords (allRecords fs)).filter
        (fun r => !(pyStrip r.medications.data).isEmpty), ?_, ?_, rfl⟩
    · exact (sortRecords_sorted (allRecords fs)).sublist (List.filter_sublist _)
    · exact (sortRecords_perm (allRecords fs)).filter _

theorem hashpw_ne (password salt : String) : hashpw password salt ≠ password := by
  intro h
  have hl := congrArg String.length h
  rw [hashpw, String.length_append, String.length_append, String.length_append,
    show ("$2b$" : String).length = 4 from by decide,
    show ("$" : String).length = 1 from by decide] at hl
  omega

/-- C3: `register` fails with a `ValidationError` and leaves the store
unchanged iff the username is empty, the password is empty, the
passwords mismatch, the password is shorter than 8 characters, or the
username is already taken; otherwise it appends exactly one entry for
the username, storing a hash that is never the raw password, the given
role, and the role-appropriate empty structure. -/
theorem claim_C3 (users : Users) (username password confirm : String) (role : Role)
    (salt : String) :
    ((signup users username password confirm role salt).1 = .validationError ↔
       username = "" ∨ password = "" ∨ password ≠ confirm ∨ password.length < 8 ∨
         ∃ u, findUser users username = some u) ∧
    ((signup users username password confirm role salt).1 = .validationError →
       (signup users username password confirm role salt).2 = users) ∧
    ((signup users username password confirm role salt).1 = .ok →
       findUser users username = none ∧
       (signup users username password confirm role salt).2 =
         users ++ [(username,
           { password := hashpw password salt, role := role,
             medical_history := if role = .patient then .val [] else .null,
             patients := if role = .doctor then .val [] else .null,
             doctors := .absent })] ∧
       hashpw password salt ≠ password) := by
  rw [signup]
  by_cases h1 : username = "" ∨ password = ""
  · simp [h1]
    tauto
  · rw [if_neg h1]
    by_cases h2 : password ≠ confirm
    · simp [h2, h1]
    · rw [if_neg h2]
      by_cases h3 : password.length < 8
      · simp [h3, h1, h2]
      · rw [if_neg h3]
        by_cases h4 : (findUser users username).isSome
        · rw [if_pos h4]
          rw [Option.isSome_iff_exists] at h4
          simp [h1, h2, h3, h4]
        · rw [if_neg h4]
          rw [Option.not_isSome_iff_eq_none] at h4
          simp [h1, h2, h3, h4, hashpw_ne]

/-- C4: `authenticate` fails with an `AuthError` iff the username is
absent or the password does not verify against the stored hash;
otherwise it succeeds and marks the session logged in with that
username and the stored user's role. -/
theorem claim_C4 (st : AppState) (username password : String) :
    ((login st username password).1 = .authError ↔
       findUser st.users username = none ∨
         ∃ u, findUser st.users username = some u ∧ checkpw password u.password = false) ∧
    (∀ u, findUser st.users username = some u → checkpw password u.password = true →
       login st username password =
         (.ok, { st with session :=
           { logged_in := true, username := username, role := some u.role } })) := by
  rw [login]
  cases hfu : findUser st.users username with
  | none => simp
  | some u =>
    by_cases hc : checkpw password u.password
    · simp [hc]
    · simp [hc]

/-- C8: whenever `authenticate` fails — the username is absent or the
password hash does not match — the whole state is unchanged: session
flag, username, role and the user store keep their prior values. -/
theorem claim_C8 (st : AppState) (username password : String)
    (h : (login st username password).1 = .authError) :
    (login st username password).2 = st := by
  rw [login] at h ⊢
  cases hfu : findUser st.users username with
  | none => rfl
  | some u =>
    rw [hfu] at h
    by_cases hc : checkpw password u.password
    · simp [hc] at h
    · simp [hc]

theorem findUser_append : ∀ (l₁ l₂ : Users) (p : String),
    findUser (l₁ ++ l₂) p =
      match findUser l₁ p with
      | some u => some u
      | none => findUser l₂ p
  | [], _, _ => rfl
  | (k, u) :: rest, l₂, p => by
    by_cases h : k = p <;> simp [findUser, h, findUser_append rest l₂ p]

theorem findUser_updateUser : ∀ (users : Users) (name : String) (g : User → User) (p : String),
    findUser (updateUser users name g) p =
      if p = name then (findUser users name).map g else findUser users p
  | [], name, g, p => by simp [updateUser, findUser]
  | (k, u) :: rest, name, g, p => by
    by_cases hk : k = name
    · subst hk
      by_cases hp : p = k
      · subst hp
        simp [updateUser, findUser]
      · have hkp : ¬k = p := fun h => hp h.symm
        simp [updateUser, findUser, hp, hkp]
    · by_cases hkp : k = p
      · subst hkp
        have hpn : ¬k = name := hk
        simp [updateUser, findUser, hk, hpn]
      · simp [updateUser, findUser, hk, hkp, findUser_updateUser rest name g p]

theorem login_users (st : AppState) (username password : String) :
    ((login st username password).2).users = st.users := by
  rw [login]
  cases findUser st.users username with
  | none => rfl
  | some u => by_cases hc : checkpw password u.password <;> simp [hc]

theorem signup_users (users : Users) (username password confirm : String) (role : Role)
    (salt : String) :
    (signup users username password confirm role salt).2 = users ∨
      (signup users username password confirm role salt).2 =
        users ++ [(username,
          { password := hashpw password salt, role := role,
            medical_history := if role = .patient then .val [] else .null,
            patients := if role = .doctor then .val [] else .null,
            doctors := .absent })] := by
  rw [signup]
  by_cases h1 : username = "" ∨ password = ""
  · simp [h1]
  · rw [if_neg h1]
    by_cases h2 : password ≠ confirm
    · simp [h2]
    · rw [if_neg h2]
      by_cases h3 : password.length < 8
      · simp [h3]
      · rw [if_neg h3]
        by_cases h4 : (findUser users username).isSome
        · simp [h4]
        · simp [h4]

theorem doctorsOrEmpty_set_history (u : User) (mh : DictField Folders) :
    doctorsOrEmpty { u with medical_history := mh } = doctorsOrEmpty u := rfl

theorem addRecordToUser_medical_history (u : User) (folder : String) (r : MedicalRecord)
    (d : String) :
    (addRecordToUser u folder r d).medical_history =
      match u.medical_history with
      | .val fs => DictField.val (addToFolders fs folder r)
      | mh => mh := by
  rw [addRecordToUser]
  split <;> rfl

theorem addRecordToUser_patients (u : User) (folder : String) (r : MedicalRecord)
    (d : String) :
    (addRecordToUser u folder r d).patients = u.patients := by
  rw [addRecordToUser]
  split <;> rfl

theorem addRecordToUser_role (u : User) (folder : String) (r : MedicalRecord)
    (d : String) :
    (addRecordToUser u folder r d).role = u.role := by
  rw [addRecordToUser]
  split <;> rfl

theorem doctors_addRecordToUser (u : User) (folder : String) (r : MedicalRecord)
    (d : String) :
    doctorsOrEmpty (addRecordToUser u folder r d) =
      if d ∈ doctorsOrEmpty u then doctorsOrEmpty u else doctorsOrEmpty u ++ [d] := by
  rcases u with ⟨pw, role, mh, pats, docs⟩
  cases docs with
  | absent => simp [addRecordToUser, doctorsOrEmpty]
  | null => simp [addRecordToUser, doctorsOrEmpty]
  | val l =>
    by_cases hd : d ∈ l <;> simp [addRecordToUser, doctorsOrEmpty, hd]

theorem mem_doctors_addRecordToUser (u : User) (folder : String) (r : MedicalRecord)
    (d : String) :
    d ∈ doctorsOrEmpty (addRecordToUser u folder r d) := by
  rw [doctors_addRecordToUser]
  by_cases hd : d ∈ doctorsOrEmpty u
  · simpa [hd]
  · simp [hd]

theorem nodup_doctors_addRecordToUser (u : User) (folder : String) (r : MedicalRecord)
    (d : String) (h : (doctorsOrEmpty u).Nodup) :
    (doctorsOrEmpty (addRecordToUser u folder r d)).Nodup := by
  rw [doctors_addRecordToUser]
  by_cases hd : d ∈ doctorsOrEmpty u
  · simpa [hd]
  · rw [if_neg hd, List.nodup_append]
    refine ⟨h, List.nodup_singleton d, fun a ha had => ?_⟩
    rw [List.mem_singleton] at had
    subst had
    exact hd ha

theorem userInv_addRecordToUser (u : User) (folder : String) (r : MedicalRecord)
    (d : String) (h : UserInv u) (hrole : u.role = .patient) :
    UserInv (addRecordToUser u folder r d) := by
  have hrole2 := addRecordToUser_role u folder r d
  rw [UserInv, addRecordToUser_role, hrole]
  rw [UserInv, hrole] at h
  obtain ⟨hp, ⟨fs, hmh⟩, hdocs⟩ := h
  refine ⟨by rw [addRecordToUser_patients, hp], ?_, ?_⟩
  · exact ⟨addToFolders fs folder r, by rw [addRecordToUser_medical_history, hmh]⟩
  · right
    refine ⟨doctorsOrEmpty (addRecordToUser u folder r d), ?_, ?_⟩
    · rcases u with ⟨pw, role, mh, pats, docs⟩
      cases docs with
      | absent => simp [addRecordToUser, doctorsOrEmpty]
      | null =>
        rcases hdocs with h1 | ⟨l, h1, _⟩ <;> cases h1
      | val l =>
        by_cases hd : d ∈ l <;> simp [addRecordToUser, doctorsOrEmpty, hd]
    · refine nodup_doctors_addRecordToUser u folder r d ?_
      rcases hdocs with h1 | ⟨l, h1, hnd⟩ <;> simp [doctorsOrEmpty, h1]
      exact hnd

theorem userInv_signup_new (password salt : String) (role : Role) :
    UserInv
      { password := hashpw password salt, role := role,
        medical_history := if role = .patient then .val [] else .null,
        patients := if role = .doctor then .val [] else .null,
        doctors := .absent } := by
  cases role with
  | patient => exact ⟨rfl, ⟨[], rfl⟩, Or.inl rfl⟩
  | doctor => exact ⟨rfl, rfl, rfl⟩

theorem stateInv_step (st : AppState) (op : Op) (h : StateInv st) : StateInv (step st op) := by
  cases op with
  | signup username password confirm role salt =>
    rw [step]
    by_cases hl : st.session.logged_in
    · rwa [if_pos hl]
    · rw [if_neg hl]
      intro p u hu
      rcases signup_users st.users username password confirm role salt with hs | hs <;>
        rw [hs] at hu
      · exact h p u hu
      · rw [findUser_append] at hu
        cases hfp : findUser st.users p with
        | some v =>
          rw [hfp] at hu
          cases hu
          exact h p _ hfp
        | none =>
          rw [hfp] at hu
          rw [findUser] at hu
          by_cases hup : username = p
          · rw [if_pos hup] at hu
            cases hu
            exact userInv_signup_new password salt role
          · rw [if_neg hup] at hu
            cases hu
  | login username password =>
    have husers : (step st (.login username password)).users = st.users := by
      rw [step]
      by_cases hl : st.session.logged_in
      · rw [if_pos hl]
      · rw [if_neg hl]
        exact login_users st username password
    intro p u hu
    rw [husers] at hu
    exact h p u hu
  | logout =>
    have husers : (step st .logout).users = st.users := by
      rw [step]
      by_cases hl : st.session.logged_in
      · rw [if_pos hl]
      · rw [if_neg hl]
    intro p u hu
    rw [husers] at hu
    exact h p u hu
  | addRecord patient folder id allergies treatment medications timestamp file =>
    rw [step]
    by_cases hg : st.session.logged_in = true ∧ st.session.role = some .doctor
    · rw [if_pos hg]
      cases hfu : findUser st.users patient with
      | none => exact h
      | some u0 =>
        dsimp only
        by_cases hrole : u0.role = .patient
        · rw [if_pos hrole]
          intro p v hv
          rw [findUser_updateUser] at hv
          by_cases hp : p = patient
          · rw [if_pos hp, hfu] at hv
            simp only [Option.map] at hv
            cases hv
            exact userInv_addRecordToUser u0 folder _ st.session.username
              (h patient u0 hfu) hrole
          · rw [if_neg hp] at hv
            exact h p v hv
        · rw [if_neg hrole]
          exact h
    · rw [if_neg hg]
      exact h

theorem stateInv_foldl : ∀ (more : List Op) (st : AppState), StateInv st →
    StateInv (more.foldl step st)
  | [], _, h => h
  | op :: more, st, h =>
    stateInv_foldl more (step st op) (stateInv_step st op h)

theorem stateInv_run (ops : List Op) : StateInv (run ops) := by
  refine stateInv_foldl ops initState ?_
  intro p u hu
  cases hu

theorem findUser_append_some {l₁ : Users} {p : String} {u : User}
    (h : findUser l₁ p = some u) (l₂ : Users) : findUser (l₁ ++ l₂) p = some u := by
  rw [findUser_append, h]

theorem folderListU_eq {users : Users} {p : String} {u : User} {fs : Folders}
    (hfu : findUser users p = some u) (hmh : u.medical_history = .val fs) (f : String) :
    folderListU users p f = findFolder fs f := by
  rw [folderListU, hfu]
  dsimp only
  rw [hmh]

theorem folderList_step (st : AppState) (op : Op) (p f : String) (l : List MedicalRecord)
    (h : folderList st p f = some l) :
    ∃ t, folderList (step st op) p f = some (l ++ t) := by
  have hbase : ∃ u fs, findUser st.users p = some u ∧ u.medical_history = .val fs ∧
      findFolder fs f = some l := by
    rw [folderList, folderListU] at h
    cases hfu : findUser st.users p with
    | none =>
      rw [hfu] at h
      cases h
    | some u =>
      rw [hfu] at h
      dsimp only at h
      cases hmh : u.medical_history with
      | val fs =>
        rw [hmh] at h
        exact ⟨u, fs, rfl, hmh, h⟩
      | absent =>
        rw [hmh] at h
        cases h
      | null =>
        rw [hmh] at h
        cases h
  obtain ⟨u, fs, hfu, hmh, hff⟩ := hbase
  cases op with
  | signup username password confirm role salt =>
    refine ⟨[], ?_⟩
    rw [List.append_nil]
    rw [step]
    by_cases hl : st.session.logged_in
    · rwa [if_pos hl]
    · rw [if_neg hl]
      rw [folderList]
      rcases signup_users st.users username password confirm role salt with hs | hs
      · rw [show ({ st with users := (signup st.users username password confirm role salt).2 } :
            AppState).users = st.users from hs]
        rw [folderListU_eq hfu hmh]
        exact hff
      · rw [show ({ st with users := (signup st.users username password confirm role salt).2 } :
            AppState).users = _ from hs]
        rw [folderListU_eq (findUser_append_some hfu _) hmh]
        exact hff
  | login username password =>
    refine ⟨[], ?_⟩
    rw [List.append_nil]
    have husers : (step st (.login username password)).users = st.users := by
      rw [step]
      by_cases hl : st.session.logged_in
      · rw [if_pos hl]
      · rw [if_neg hl]
        exact login_users st username password
    rw [folderList, husers, folderListU_eq hfu hmh]
    exact hff
  | logout =>
    refine ⟨[], ?_⟩
    rw [List.append_nil]
    have husers : (step st .logout).users = st.users := by
      rw [step]
      by_cases hl : st.session.logged_in
      · rw [if_pos hl]
      · rw [if_neg hl]
    rw [folderList, husers, folderListU_eq hfu hmh]
    exact hff
  | addRecord q folder id allergies treatment medications timestamp file =>
    rw [step]
    by_cases hg : st.session.logged_in = true ∧ st.session.role = some .doctor
    · rw [if_pos hg]
      cases hfq : findUser st.users q with
      | none =>
        refine ⟨[], ?_⟩
        rw [List.append_nil]
        exact h
      | some u0 =>
        dsimp only
        by_cases hrole : u0.role = .patient
        · rw [if_pos hrole]
          by_cases hp : p = q
          · subst hp
            rw [hfu] at hfq
            cases hfq
            have hfu2 : findUser (updateUser st.users p fun v => addRecordToUser v folder { id := id, doctor := st.session.username, allergies := allergies, treatment := treatment, medications := medications, timestamp := timestamp, file := file } st.session.username) p = some (addRecordToUser u folder { id := id, doctor := st.session.username, allergies := allergies, treatment := treatment, medications := medications, timestamp := timestamp, file := file } st.session.username) := by
              rw [findUser_updateUser, if_pos rfl, hfu]
              rfl
            have hmh2 : (addRecordToUser u folder { id := id, doctor := st.session.username, allergies := allergies, treatment := treatment, medications := medications, timestamp := timestamp, file := file } st.session.username).medical_history = DictField.val (addToFolders fs folder { id := id, doctor := st.session.username, allergies := allergies, treatment := treatment, medications := medications, timestamp := timestamp, file := file }) := by
              rw [addRecordToUser_medical_history, hmh]
            by_cases hf2 : f = folder
            · subst hf2
              refine ⟨[{ id := id, doctor := st.session.username, allergies := allergies, treatment := treatment, medications := medications, timestamp := timestamp, file := file }], ?_⟩
              rw [folderList, folderListU_eq hfu2 hmh2, findFolder_addToFolders_same, hff]
              rfl
            · refine ⟨[], ?_⟩
              rw [List.append_nil]
              rw [folderList, folderListU_eq hfu2 hmh2,
                findFolder_addToFolders_other _ _ _ _ hf2]
              exact hff
          · refine ⟨[], ?_⟩
            rw [List.append_nil]
            have hfu2 : findUser (updateUser st.users q fun v => addRecordToUser v folder { id := id, doctor := st.session.username, allergies := allergies, treatment := treatment, medications := medications, timestamp := timestamp, file := file } st.session.username) p = some u := by
              rw [findUser_updateUser, if_neg hp, hfu]
            rw [folderList, folderListU_eq hfu2 hmh]
            exact hff
        · rw [if_neg hrole]
          refine ⟨[], ?_⟩
          rw [List.append_nil]
          exact h
    · rw [if_neg hg]
      refine ⟨[], ?_⟩
      rw [List.append_nil]
      exact h

theorem folderList_foldl : ∀ (more : List Op) (st : AppState) (p f : String)
    (l : List MedicalRecord), folderList st p f = some l →
    ∃ t, folderList (more.foldl step st) p f = some (l ++ t)
  | [], _, _, _, l, h => ⟨[], by rw [List.append_nil]; exact h⟩
  | op :: more, st, p, f, l, h => by
    obtain ⟨t1, h1⟩ := folderList_step st op p f l h
    obtain ⟨t2, h2⟩ := folderList_foldl more (step st op) p f (l ++ t1) h1
    exact ⟨t1 ++ t2, by rw [List.foldl_cons, h2, List.append_assoc]⟩

/-- C7: for every sequence of operations, once a record is in a folder
it is never modified or removed — subsequent operations only append —
and a folder, created implicitly on first record insertion, is never
deleted: whatever `listRecords`-visible content a (patient, folder) pair
has after some operations is an unchanged prefix of its content after
any further operations. -/
theorem claim_C7 (ops more : List Op) (p f : String) (l : List MedicalRecord)
    (h : folderList (run ops) p f = some l) :
    ∃ t, folderList (run (ops ++ more)) p f = some (l ++ t) := by
  rw [run, List.foldl_append]
  exact folderList_foldl more (run ops) p f l h

/-- C6 (amended): after a doctor adds a record, the doctor's username is
a member of the patient's `doctors` list and that list never contains
duplicates; in the doctor-to-patient direction there is no uniqueness
guard because no operation ever appends there — a doctor's `patients`
list stays empty in every reachable state, so repeated actions cannot
produce duplicates in it. -/
theorem claim_C6 :
    (∀ ops p u, findUser (run ops).users p = some u → u.role = .doctor →
       u.patients = DictField.val []) ∧
    (∀ ops p u, findUser (run ops).users p = some u → u.role = .patient →
       (doctorsOrEmpty u).Nodup) ∧
    (∀ st patient folder id allergies treatment medications timestamp file u,
       st.session.logged_in = true → st.session.role = some Role.doctor →
       findUser st.users patient = some u → u.role = .patient →
       ∃ u', findUser (step st (.addRecord patient folder id allergies treatment
           medications timestamp file)).users patient = some u' ∧
         st.session.username ∈ doctorsOrEmpty u') := by
  refine ⟨fun ops p u h hrole => ?_, fun ops p u h hrole => ?_, ?_⟩
  · have hinv := stateInv_run ops p u h
    rw [UserInv, hrole] at hinv
    exact hinv.1
  · have hinv := stateInv_run ops p u h
    rw [UserInv, hrole] at hinv
    rcases hinv.2.2 with h1 | ⟨l, h1, hnd⟩
    · simp [doctorsOrEmpty, h1]
    · simpa [doctorsOrEmpty, h1] using hnd
  · intro st patient folder id allergies treatment medications timestamp file u
      hlog hrole hfu hpat
    rw [step, if_pos ⟨hlog, hrole⟩, hfu]
    dsimp only
    rw [if_pos hpat]
    refine ⟨addRecordToUser u folder { id := id, doctor := st.session.username, allergies := allergies, treatment := treatment, medications := medications, timestamp := timestamp, file := file } st.session.username, ?_,
      mem_doctors_addRecordToUser u folder { id := id, doctor := st.session.username, allergies := allergies, treatment := treatment, medications := medications, timestamp := timestamp, file := file } st.session.username⟩
    rw [findUser_updateUser, if_pos rfl, hfu]
    rfl

/-- C6 counterexample: in the demo trace the doctor `bob` performs two
`addRecord` actions on the same patient, yet bob's `patients` list ends
empty — repeated doctor-to-patient actions never produce duplicate (or
any) entries there, contrary to the claim that duplicates are possible
in that direction. -/
theorem claim_C6_counterexample :
    (findUser (run opsDemo).users "bob").map User.patients =
      some (DictField.val []) := by
  decide

theorem claim_C6_witness :
    userBob0.patients = DictField.val [] ∧
    (∃ u', findUser (step stDemo2 (.addRecord "alice" "Checkups" "id1" "peanuts, Dust"
        "Rest" "Ibuprofen" "2024-01-01 10:00:00" none)).users "alice" = some u' ∧
      stDemo2.session.username ∈ doctorsOrEmpty u') :=
  ⟨claim_C6.1 opsDemo "bob" userBob0 (by decide) rfl,
   claim_C6.2.2 stDemo2 "alice" "Checkups" "id1" "peanuts, Dust" "Rest" "Ibuprofen"
     "2024-01-01 10:00:00" none userAlice0 (by decide) (by decide) (by decide) rfl⟩

/-- C10: in every reachable state, a user registered with role Doctor
has a `patients` list equal to the empty list — no operation ever
appends to it — and a user registered with role Patient carries the
`patients` key with a null value (rather than the key being absent)
together with a proper `medical_history` dict. -/
theorem claim_C10 (ops : List Op) (p : String) (u : User)
    (h : findUser (run ops).users p = some u) :
    (u.role = .doctor → u.patients = DictField.val []) ∧
    (u.role = .patient → u.patients = DictField.null ∧
      ∃ fs, u.medical_history = DictField.val fs) := by
  have hinv := stateInv_run ops p u h
  constructor
  · intro hrole
    rw [UserInv, hrole] at hinv
    exact hinv.1
  · intro hrole
    rw [UserInv, hrole] at hinv
    exact ⟨hinv.1, hinv.2.1⟩

theorem claim_C10_witness :
    userBob0.patients = DictField.val [] ∧
    (userAliceAfter.patients = DictField.null ∧
      ∃ fs, userAliceAfter.medical_history = DictField.val fs) :=
  ⟨(claim_C10 opsDemo "bob" userBob0 (by decide)).1 rfl,
   (claim_C10 opsDemo "alice" userAliceAfter (by decide)).2 rfl⟩

theorem claim_C7_witness :
    ∃ t, folderList (run (opsDemo.take 4 ++ opsDemo.drop 4)) "alice" "Checkups" =
      some ([recA1] ++ t) :=
  claim_C7 (opsDemo.take 4) (opsDemo.drop 4) "alice" "Checkups" [recA1] (by decide)

theorem claim_C1_witness :
    List.count 1 (symptomsVector ["fever", "cough", "headache"] "fever, headache") = 2 :=
  ((claim_C1 ["fever", "cough", "headache"] (fun _ => "Flu") "fever, headache").2.1
    (by decide) (by decide) (by decide)).1

theorem claim_C3_witness :
    (signup [] "alice" "password1" "password1" Role.patient "SALTA").2 =
      [("alice", userAlice0)] ∧ hashpw "password1" "SALTA" ≠ "password1" := by
  have h := (claim_C3 [] "alice" "password1" "password1" Role.patient "SALTA").2.2 (by decide)
  refine ⟨?_, h.2.2⟩
  rw [h.2.1]
  decide

theorem claim_C4_witness :
    login stAlice "alice" "password1" =
      (.ok, { stAlice with session :=
        { logged_in := true, username := "alice", role := some Role.patient } }) :=
  (claim_C4 stAlice "alice" "password1").2 userAlice0 (by decide) (by decide)

theorem claim_C8_witness : (login stAlice "bob" "wrongpass").2 = stAlice :=
  claim_C8 stAlice "bob" "wrongpass" (by decide)

theorem claim_C9_witness :
    symptomsVector ["fever"] "cough" = symptomsVector ["fever"] "cough" ∧
      predict (fun _ => "Flu") ["fever"] "cough" = predict (fun _ => "Flu") ["fever"] "cough" :=
  claim_C9 (fun _ => "Flu") ["fever"] "cough" "cough" rfl

/-- Sanity evaluation: in the demo trace, the records of alice's
`Checkups` folder are the two added records and the round-trip of the
stored password verifies while a wrong password does not. -/
theorem demo_trace_eval :
    folderList (run opsDemo) "alice" "Checkups" = some [recA1, recA2] ∧
    (findUser (run opsDemo).users "alice").map User.doctors =
      some (DictField.val ["bob"]) ∧
    checkpw "password1" (hashpw "password1" "SALTA") = true ∧
    checkpw "wrongpass" (hashpw "password1" "SALTA") = false ∧
    listRecords foldersDemo "Checkups" = [recA2, recA1] ∧
    currentMedications foldersDemo = [("Ibuprofen", "bob", "2024-01-01 10:00:00")] ∧
    symptomsVector ["fever", "cough", "headache"] "fever, headache" = [1, 0, 1] := by
  decide

end Healthcare
